import Mathlib

/-!
Shallow embedding of the VitaStock stock-ledger core
(`src/apps/inventory/models.py`, `forms.py`, `views.py`).

Quantities are embedded as `Int` (Django `PositiveIntegerField` guarantees the
stored value is a non-negative integer; non-negativity of batch quantities is
proved as an invariant rather than assumed by the type).  A `Batch` row carries
its primary key `id`, the foreign keys `product` and `location` as numeric ids,
the free-text `lot_code`, the `expiry_date` as an integer day number, and the
`quantity`.  The database-level facts used by the proofs — primary keys are
distinct and `unique_together (product, lot_code, location)` holds — appear as
explicit hypotheses.
-/

namespace VitaStock

/-- A row of the `Batch` table (`models.py` lines 76-106). -/
structure Batch where
  id : Nat
  product : Nat
  lot_code : String
  expiry_date : Int
  quantity : Int
  location : Nat
deriving DecidableEq, Repr

/-- `Movement.MovementType` (`models.py` lines 110-115). -/
inductive MovementType where
  | IN
  | OUT
  | WASTE
  | ADJUST
  | TRANSFER
deriving DecidableEq, Repr

/-- A `Movement` record / movement intent (`models.py` lines 109-129):
source batch id, type, quantity, optional destination location id. -/
structure Movement where
  id : Nat
  batch : Nat
  movement_type : MovementType
  quantity : Int
  destination_location : Option Nat
deriving DecidableEq, Repr

/-- The error taxonomy of the ledger core (spec section 7; in the code these
are `ValidationError`s with distinct messages, plus the database
`IntegrityError` for a violated unique constraint and `DoesNotExist`). -/
inductive MovementError where
  | invalidQuantity
  | invalidDestination
  | insufficientStock
  | notFound
  | integrityError
deriving DecidableEq, Repr

/-- The Batch table: the list of current batch rows. -/
abbrev BatchStore := List Batch

/-- `Batch.objects.get(pk=i)` / `select_for_update().get(pk=i)`. -/
def getBatch (s : BatchStore) (i : Nat) : Option Batch :=
  s.find? (fun b => b.id == i)

/-- What `b.save()` writes into the row with primary key `i` when the
in-memory object's quantity is `v`: rows with another id are untouched. -/
def updAt (i : Nat) (v : Int) (b : Batch) : Batch :=
  if b.id == i then { b with quantity := v } else b

/-- Persisting `b.quantity = v; b.save()` for the row with primary key `i`. -/
def setQuantity (s : BatchStore) (i : Nat) (v : Int) : BatchStore :=
  s.map (updAt i v)

/-- The primary key the database would assign to a freshly inserted row:
any id strictly larger than every existing id. -/
def freshId (s : BatchStore) : Nat :=
  (s.map Batch.id).foldr Nat.max 0 + 1

/-- The four-field lookup used by transfer resolution:
`Batch.objects.get(product=…, lot_code=…, expiry_date=…, location=…)`. -/
def findByKey (s : BatchStore) (p : Nat) (lc : String) (e : Int) (l : Nat) :
    Option Batch :=
  s.find? (fun b =>
    b.product == p && b.lot_code == lc && b.expiry_date == e && b.location == l)

/-- Does the store hold a row with the `unique_together (product, lot_code,
location)` key?  Inserting another row with this key raises `IntegrityError`. -/
def hasUniqueKey (s : BatchStore) (p : Nat) (lc : String) (l : Nat) : Bool :=
  s.any (fun b => b.product == p && b.lot_code == lc && b.location == l)

/-- `Batch.objects.select_for_update().get_or_create(product=…, lot_code=…,
expiry_date=…, location=dest, defaults=quantity 0)` as called by
`Movement.save` (`models.py` lines 171-177); a create that collides with the
`unique_together (product, lot_code, location)` constraint of `Batch.Meta`
(`models.py` line 86) raises `IntegrityError`. -/
def getOrCreateDest (s : BatchStore) (src : Batch) (dest : Nat) :
    Except MovementError (Batch × BatchStore) :=
  match findByKey s src.product src.lot_code src.expiry_date dest with
  | some b => .ok (b, s)
  | none =>
    if hasUniqueKey s src.product src.lot_code dest then
      .error .integrityError
    else
      let nb : Batch :=
        ⟨freshId s, src.product, src.lot_code, src.expiry_date, 0, dest⟩
      .ok (nb, s ++ [nb])

/-- `Movement.save` (`models.py` lines 151-182): the Ledger Application
Engine.  Re-reads the source batch, applies the delta by movement type,
and for TRANSFER resolves the destination batch via `get_or_create`.
The in-memory object writes are persisted in source order:
`dest_batch.save()` (line 180) before `batch.save()` (line 181), each
writing the quantity computed from the value its Python object read.
An exception inside `transaction.atomic()` rolls back every write, which
the embedding models by returning `.error` with no new store. -/
def Movement.save (s : BatchStore) (m : Movement) :
    Except MovementError BatchStore :=
  match getBatch s m.batch with
  | none => .error .notFound
  | some batch =>
    match m.movement_type with
    | .IN => .ok (setQuantity s batch.id (batch.quantity + m.quantity))
    | .OUT =>
      if m.quantity > batch.quantity then .error .insufficientStock
      else .ok (setQuantity s batch.id (batch.quantity - m.quantity))
    | .WASTE =>
      if m.quantity > batch.quantity then .error .insufficientStock
      else .ok (setQuantity s batch.id (batch.quantity - m.quantity))
    | .ADJUST => .ok (setQuantity s batch.id (max 0 m.quantity))
    | .TRANSFER =>
      if m.quantity > batch.quantity then .error .insufficientStock
      else
        match m.destination_location with
        | none => .error .integrityError
        | some d =>
          match getOrCreateDest s batch d with
          | .error e => .error e
          | .ok (dest, s1) =>
            let s2 := setQuantity s1 dest.id (dest.quantity + m.quantity)
            .ok (setQuantity s2 batch.id (batch.quantity - m.quantity))

/-- The transactional wrapper: on any error the transaction rolls back and the
store is exactly what it was before the attempt. -/
def applyMovement (s : BatchStore) (m : Movement) :
    BatchStore × Option MovementError :=
  match Movement.save s m with
  | .ok t => (t, none)
  | .error e => (s, some e)

/-- Folding a sequence of movement intents through the engine (each failed
one rolls back and leaves the store unchanged). -/
def applyAll (s : BatchStore) (ms : List Movement) : BatchStore :=
  ms.foldl (fun t m => (applyMovement t m).1) s

/-- Quantity of the batch with primary key `i` (0 when no such row). -/
def qtyOfId (s : BatchStore) (i : Nat) : Int :=
  ((getBatch s i).map Batch.quantity).getD 0

/-- Quantity of the first batch matching the four-field transfer key
(0 when no such row). -/
def qtyOfKey (s : BatchStore) (p : Nat) (lc : String) (e : Int) (l : Nat) :
    Int :=
  ((findByKey s p lc e l).map Batch.quantity).getD 0

/-- Every batch quantity in the store is non-negative. -/
abbrev AllNonneg (s : BatchStore) : Prop := ∀ b ∈ s, 0 ≤ b.quantity

/-- Primary keys are pairwise distinct (database `pk` uniqueness). -/
abbrev NodupIds (s : BatchStore) : Prop := (s.map Batch.id).Nodup

/-- The `unique_together (product, lot_code, location)` constraint of
`Batch.Meta` holds of the store. -/
abbrev UniqueKeys (s : BatchStore) : Prop :=
  ∀ x ∈ s, ∀ y ∈ s,
    x.product = y.product → x.lot_code = y.lot_code → x.location = y.location →
      x = y

/-- `Movement.clean` (`models.py` lines 137-149): the validation run before
`save` in the form flow.  Checks `quantity >= 1`; then, with a batch bound,
rejects OUT/WASTE whose quantity exceeds the batch's current quantity;
for TRANSFER requires a destination different from the source batch's
location and again rejects a quantity exceeding the batch's quantity.
(Accessing `self.batch` with a dangling id raises `DoesNotExist`,
modelled as `notFound`.) -/
def Movement.clean (s : BatchStore) (m : Movement) :
    Except MovementError Unit :=
  if m.quantity < 1 then .error .invalidQuantity
  else
    match getBatch s m.batch with
    | none => .error .notFound
    | some b =>
      if (m.movement_type = .OUT ∨ m.movement_type = .WASTE) ∧
          b.quantity < m.quantity then
        .error .insufficientStock
      else if m.movement_type = .TRANSFER then
        match m.destination_location with
        | none => .error .invalidDestination
        | some d =>
          if d = b.location then .error .invalidDestination
          else if b.quantity < m.quantity then .error .insufficientStock
          else .ok ()
      else .ok ()

/-- The whole persisted application state: the Batch table plus the
Movement ledger table. -/
structure AppState where
  batches : BatchStore
  movements : List Movement
deriving DecidableEq, Repr

/-- `super().save(*args, **kwargs)` (`models.py` line 182) on the Movement
table: an `INSERT` when the primary key is new, an `UPDATE` of the existing
row otherwise. -/
def saveRecord (ledger : List Movement) (m : Movement) : List Movement :=
  if ledger.any (fun x => x.id == m.id) then
    ledger.map (fun x => if x.id == m.id then m else x)
  else ledger ++ [m]

/-- `Movement.save` on the full state: lines 152-181 mutate the Batch table
(`Movement.save` above) and line 182 persists the Movement record itself,
all inside one `transaction.atomic()`. -/
def Movement.fullSave (st : AppState) (m : Movement) :
    Except MovementError AppState :=
  match Movement.save st.batches m with
  | .error e => .error e
  | .ok bs => .ok ⟨bs, saveRecord st.movements m⟩

/-- `MovementUpdateView` (`views.py` lines 302-309): editing an existing
Movement submits `MovementForm` and calls `instance.save()`, i.e. exactly
`Movement.save` again on the (already persisted) record. -/
def MovementUpdateView.post (st : AppState) (m : Movement) :
    Except MovementError AppState :=
  Movement.fullSave st m

/-- `MovementDeleteView` (`views.py` lines 312-321): a plain Django
`DeleteView` — it removes the Movement row and performs no compensation on
any batch (the `Movement` model defines no `delete` override and no signal
handler exists in the app). -/
def MovementDeleteView.post (st : AppState) (i : Nat) : AppState :=
  ⟨st.batches, st.movements.filter (fun m => !(m.id == i))⟩

/-- `BatchForm.Meta.fields` (`forms.py` line 131). -/
def BatchForm.fields : List String :=
  ["product", "lot_code", "expiry_date", "quantity", "location"]

/-- `MovementForm.Meta.fields` (`forms.py` line 170). -/
def MovementForm.fields : List String :=
  ["batch", "movement_type", "quantity", "destination_location", "note"]

/-- `BatchCreateView.form_class = BatchForm` (`views.py` lines 244-251):
the fields a caller can set when creating a Batch. -/
def BatchCreateView.form_fields : List String := BatchForm.fields

/-- `BatchUpdateView.form_class = BatchForm` (`views.py` lines 254-261):
the fields a caller can set when editing a Batch. -/
def BatchUpdateView.form_fields : List String := BatchForm.fields

theorem updAt_id (i : Nat) (v : Int) (b : Batch) : (updAt i v b).id = b.id := by
  unfold updAt; split <;> rfl

theorem updAt_product (i : Nat) (v : Int) (b : Batch) :
    (updAt i v b).product = b.product := by
  unfold updAt; split <;> rfl

theorem updAt_lot_code (i : Nat) (v : Int) (b : Batch) :
    (updAt i v b).lot_code = b.lot_code := by
  unfold updAt; split <;> rfl

theorem updAt_expiry_date (i : Nat) (v : Int) (b : Batch) :
    (updAt i v b).expiry_date = b.expiry_date := by
  unfold updAt; split <;> rfl

theorem updAt_location (i : Nat) (v : Int) (b : Batch) :
    (updAt i v b).location = b.location := by
  unfold updAt; split <;> rfl

theorem getBatch_setQuantity (s : BatchStore) (i : Nat) (v : Int) (j : Nat) :
    getBatch (setQuantity s i v) j = (getBatch s j).map (updAt i v) := by
  unfold getBatch setQuantity
  rw [List.find?_map]
  have hp : ((fun b : Batch => b.id == j) ∘ updAt i v) =
      (fun b : Batch => b.id == j) := by
    funext b
    simp [Function.comp, updAt_id]
  rw [hp]

theorem findByKey_setQuantity (s : BatchStore) (i : Nat) (v : Int)
    (p : Nat) (lc : String) (e : Int) (l : Nat) :
    findByKey (setQuantity s i v) p lc e l =
      (findByKey s p lc e l).map (updAt i v) := by
  unfold findByKey setQuantity
  rw [List.find?_map]
  have hp : ((fun b : Batch =>
        b.product == p && b.lot_code == lc && b.expiry_date == e &&
          b.location == l) ∘ updAt i v) =
      (fun b : Batch =>
        b.product == p && b.lot_code == lc && b.expiry_date == e &&
          b.location == l) := by
    funext b
    simp [Function.comp, updAt_product, updAt_lot_code,
      updAt_expiry_date, updAt_location]
  rw [hp]

theorem getBatch_id_eq {s : BatchStore} {j : Nat} {b : Batch}
    (h : getBatch s j = some b) : b.id = j := by
  have := List.find?_some h
  simpa using this

theorem getBatch_mem {s : BatchStore} {j : Nat} {b : Batch}
    (h : getBatch s j = some b) : b ∈ s :=
  List.mem_of_find?_eq_some h

theorem getBatch_isSome_of_mem {s : BatchStore} {b : Batch} (h : b ∈ s) :
    (getBatch s b.id).isSome := by
  unfold getBatch
  exact List.find?_isSome.mpr ⟨b, h, by simp⟩

theorem qtyOfId_eq_of_getBatch {s : BatchStore} {j : Nat} {b : Batch}
    (h : getBatch s j = some b) : qtyOfId s j = b.quantity := by
  unfold qtyOfId; rw [h]; rfl

theorem qtyOfId_setQuantity_same {s : BatchStore} {i : Nat} (v : Int)
    (h : (getBatch s i).isSome) :
    qtyOfId (setQuantity s i v) i = v := by
  obtain ⟨b, hb⟩ := Option.isSome_iff_exists.mp h
  have hbi : b.id = i := getBatch_id_eq hb
  unfold qtyOfId
  rw [getBatch_setQuantity, hb]
  simp [updAt, hbi]

theorem qtyOfId_setQuantity_ne {s : BatchStore} {i j : Nat} (v : Int)
    (h : j ≠ i) :
    qtyOfId (setQuantity s i v) j = qtyOfId s j := by
  unfold qtyOfId
  rw [getBatch_setQuantity]
  cases hb : getBatch s j with
  | none => rfl
  | some b =>
    have hbj : b.id = j := getBatch_id_eq hb
    simp [updAt, hbj, h]

theorem getBatch_isSome_setQuantity (s : BatchStore) (i : Nat) (v : Int)
    (j : Nat) :
    (getBatch (setQuantity s i v) j).isSome = (getBatch s j).isSome := by
  rw [getBatch_setQuantity]
  cases getBatch s j <;> rfl

theorem save_eq_of_in {s : BatchStore} {m : Movement} {b : Batch}
    (hb : getBatch s m.batch = some b) (h : m.movement_type = .IN) :
    Movement.save s m = .ok (setQuantity s b.id (b.quantity + m.quantity)) := by
  unfold Movement.save
  rw [hb, h]

theorem save_eq_of_out {s : BatchStore} {m : Movement} {b : Batch}
    (hb : getBatch s m.batch = some b) (h : m.movement_type = .OUT) :
    Movement.save s m =
      if m.quantity > b.quantity then .error .insufficientStock
      else .ok (setQuantity s b.id (b.quantity - m.quantity)) := by
  unfold Movement.save
  rw [hb, h]

theorem save_eq_of_waste {s : BatchStore} {m : Movement} {b : Batch}
    (hb : getBatch s m.batch = some b) (h : m.movement_type = .WASTE) :
    Movement.save s m =
      if m.quantity > b.quantity then .error .insufficientStock
      else .ok (setQuantity s b.id (b.quantity - m.quantity)) := by
  unfold Movement.save
  rw [hb, h]

theorem save_eq_of_adjust {s : BatchStore} {m : Movement} {b : Batch}
    (hb : getBatch s m.batch = some b) (h : m.movement_type = .ADJUST) :
    Movement.save s m = .ok (setQuantity s b.id (max 0 m.quantity)) := by
  unfold Movement.save
  rw [hb, h]

theorem save_eq_of_transfer {s : BatchStore} {m : Movement} {b : Batch}
    {d : Nat} (hb : getBatch s m.batch = some b)
    (h : m.movement_type = .TRANSFER) (hd : m.destination_location = some d) :
    Movement.save s m =
      if m.quantity > b.quantity then .error .insufficientStock
      else
        match getOrCreateDest s b d with
        | .error e => .error e
        | .ok (dest, s1) =>
          .ok (setQuantity (setQuantity s1 dest.id (dest.quantity + m.quantity))
            b.id (b.quantity - m.quantity)) := by
  unfold Movement.save
  rw [hb, h, hd]

/-- C3: an OUT or WASTE movement whose amount exceeds the source batch's
current quantity makes the engine fail with `insufficientStock` and leaves
the store exactly as it was; when the amount is at most the current quantity
the movement succeeds and the batch's quantity is decremented by exactly the
amount. -/
theorem out_waste_requires_stock (s : BatchStore) (m : Movement) (b : Batch)
    (hb : getBatch s m.batch = some b)
    (hty : m.movement_type = .OUT ∨ m.movement_type = .WASTE) :
    (b.quantity < m.quantity →
      applyMovement s m = (s, some .insufficientStock)) ∧
    (m.quantity ≤ b.quantity →
      (applyMovement s m).2 = none ∧
      qtyOfId (applyMovement s m).1 m.batch = b.quantity - m.quantity) := by
  have hbid : b.id = m.batch := getBatch_id_eq hb
  have hsave : Movement.save s m =
      if m.quantity > b.quantity then .error .insufficientStock
      else .ok (setQuantity s b.id (b.quantity - m.quantity)) := by
    rcases hty with h | h
    · exact save_eq_of_out hb h
    · exact save_eq_of_waste hb h
  constructor
  · intro hlt
    unfold applyMovement
    rw [hsave, if_pos hlt]
  · intro hle
    have hnlt : ¬ (m.quantity > b.quantity) := not_lt.mpr hle
    unfold applyMovement
    rw [hsave, if_neg hnlt]
    refine ⟨rfl, ?_⟩
    show qtyOfId (setQuantity s b.id (b.quantity - m.quantity)) m.batch = _
    rw [← hbid]
    exact qtyOfId_setQuantity_same _ (by rw [hbid, hb]; rfl)

/-- C3 witness: a batch holding 7; OUT of 9 is rejected with the store
untouched, OUT of 7 would leave quantity 0. -/
theorem out_waste_requires_stock_witness :
    (applyMovement [⟨1, 2, "A", 5, 7, 3⟩] ⟨1, 1, .OUT, 9, none⟩ =
      ([⟨1, 2, "A", 5, 7, 3⟩], some .insufficientStock)) ∧
    qtyOfId (applyMovement [⟨1, 2, "A", 5, 7, 3⟩] ⟨2, 1, .OUT, 7, none⟩).1 1
      = 0 := by
  have h9 := out_waste_requires_stock [⟨1, 2, "A", 5, 7, 3⟩]
    ⟨1, 1, .OUT, 9, none⟩ ⟨1, 2, "A", 5, 7, 3⟩ rfl (Or.inl rfl)
  have h7 := out_waste_requires_stock [⟨1, 2, "A", 5, 7, 3⟩]
    ⟨2, 1, .OUT, 7, none⟩ ⟨1, 2, "A", 5, 7, 3⟩ rfl (Or.inl rfl)
  exact ⟨h9.1 (by decide), by simpa using (h7.2 (by decide)).2⟩

/-- C4: an ADJUST movement never fails for lack of stock and sets the
batch's quantity to `max 0 amount`, independent of the prior quantity. -/
theorem adjust_sets_absolute (s : BatchStore) (m : Movement) (b : Batch)
    (hb : getBatch s m.batch = some b)
    (hty : m.movement_type = .ADJUST) :
    (applyMovement s m).2 = none ∧
    qtyOfId (applyMovement s m).1 m.batch = max 0 m.quantity := by
  have hbid : b.id = m.batch := getBatch_id_eq hb
  unfold applyMovement
  rw [save_eq_of_adjust hb hty]
  refine ⟨rfl, ?_⟩
  show qtyOfId (setQuantity s b.id (max 0 m.quantity)) m.batch = _
  rw [← hbid]
  exact qtyOfId_setQuantity_same _ (by rw [hbid, hb]; rfl)

/-- C4 witness: adjusting a batch holding 2 with amount 9 succeeds and sets
the quantity to 9. -/
theorem adjust_sets_absolute_witness :
    (applyMovement [⟨4, 2, "A", 5, 2, 3⟩] ⟨1, 4, .ADJUST, 9, none⟩).2 = none ∧
    qtyOfId (applyMovement [⟨4, 2, "A", 5, 2, 3⟩] ⟨1, 4, .ADJUST, 9, none⟩).1 4
      = 9 := by
  have h := adjust_sets_absolute [⟨4, 2, "A", 5, 2, 3⟩]
    ⟨1, 4, .ADJUST, 9, none⟩ ⟨4, 2, "A", 5, 2, 3⟩ rfl rfl
  exact ⟨h.1, by simpa using h.2⟩

/-- C9: deleting a Movement record removes only the ledger entry; the Batch
table — hence every batch quantity — is left unchanged. -/
theorem movement_delete_preserves_batches (st : AppState) (i : Nat) :
    (MovementDeleteView.post st i).batches = st.batches ∧
    ∀ j : Nat,
      qtyOfId (MovementDeleteView.post st i).batches j = qtyOfId st.batches j :=
  ⟨rfl, fun _ => rfl⟩

/-- C7 counterexample: contrary to the claim that `Batch.quantity` is not
writable outside the Application Engine, the batch form exposes `quantity`
as an editable field. -/
theorem batchform_exposes_quantity : "quantity" ∈ BatchForm.fields := by
  decide

/-- C7 amended: `Batch.quantity` IS directly writable by the caller through
the batch create and edit views, whose form (`BatchForm`) lists `quantity`
among its editable fields. -/
theorem batch_views_allow_direct_quantity :
    "quantity" ∈ BatchCreateView.form_fields ∧
    "quantity" ∈ BatchUpdateView.form_fields := by
  decide

/-- C6: re-saving an existing Movement (as `MovementUpdateView` does when a
user edits it) re-applies its quantity delta: a batch holding 10 with one
IN(5) movement ends at 15 after creation, then at 20 after the edit re-save,
while the ledger still holds a single movement of 5. -/
theorem movement_resave_reapplies_delta :
    ∃ st1 st2 : AppState,
      Movement.fullSave ⟨[⟨1, 1, "L1", 0, 10, 1⟩], []⟩ ⟨1, 1, .IN, 5, none⟩
        = .ok st1 ∧
      MovementUpdateView.post st1 ⟨1, 1, .IN, 5, none⟩ = .ok st2 ∧
      st1.batches = [⟨1, 1, "L1", 0, 15, 1⟩] ∧
      st2.batches = [⟨1, 1, "L1", 0, 20, 1⟩] ∧
      st2.movements = [⟨1, 1, .IN, 5, none⟩] := by
  refine ⟨⟨[⟨1, 1, "L1", 0, 15, 1⟩], [⟨1, 1, .IN, 5, none⟩]⟩,
    ⟨[⟨1, 1, "L1", 0, 20, 1⟩], [⟨1, 1, .IN, 5, none⟩]⟩,
    ?_, ?_, rfl, rfl, rfl⟩ <;> rfl

/-- C8 counterexample: contrary to the claim that `Movement.clean` performs
no quantity-sufficiency check against live batch state, `clean` rejects an
OUT of 5 against a batch currently holding 3 with `insufficientStock`. -/
theorem clean_performs_sufficiency_check :
    Movement.clean [⟨1, 1, "L", 0, 3, 1⟩] ⟨1, 1, .OUT, 5, none⟩ =
      .error .insufficientStock := by
  rfl

/-- C8 amended: `Movement.clean` accepts a movement bound to batch `b`
exactly when the quantity is at least 1, an OUT/WASTE quantity does not
exceed the batch's current quantity, and a TRANSFER has a destination
different from the batch's location and a quantity not exceeding the
batch's current quantity — i.e. `clean` checks shape AND performs
quantity-sufficiency checks against live (unlocked) batch state. -/
theorem clean_ok_characterization (s : BatchStore) (m : Movement) (b : Batch)
    (hb : getBatch s m.batch = some b) :
    Movement.clean s m = .ok () ↔
      (1 ≤ m.quantity ∧
       ((m.movement_type = .OUT ∨ m.movement_type = .WASTE) →
         m.quantity ≤ b.quantity) ∧
       (m.movement_type = .TRANSFER →
         ∃ d, m.destination_location = some d ∧ d ≠ b.location ∧
           m.quantity ≤ b.quantity)) := by
  unfold Movement.clean
  rw [hb]
  cases hmt : m.movement_type with
  | IN =>
    by_cases h1 : m.quantity < 1
    · simp [h1]
    · simp [h1]
      omega
  | OUT =>
    by_cases h1 : m.quantity < 1
    · simp [h1]
    · by_cases h2 : b.quantity < m.quantity
      · simp [h1, h2]
      · simp [h1, h2]
        omega
  | WASTE =>
    by_cases h1 : m.quantity < 1
    · simp [h1]
    · by_cases h2 : b.quantity < m.quantity
      · simp [h1, h2]
      · simp [h1, h2]
        omega
  | ADJUST =>
    by_cases h1 : m.quantity < 1
    · simp [h1]
    · simp [h1]
      omega
  | TRANSFER =>
    by_cases h1 : m.quantity < 1
    · simp [h1]
    · cases hd : m.destination_location with
      | none => simp [h1, hd]
      | some d =>
        by_cases h3 : d = b.location
        · simp [h1, hd, h3]
        · by_cases h4 : b.quantity < m.quantity
          · simp [h1, hd, h3, h4]
          · simp [h1, hd, h3, h4]
            omega

/-- C8 witness: an OUT of 3 against a batch holding 5 passes `clean`,
concluded through the characterization. -/
theorem clean_ok_characterization_witness :
    Movement.clean [⟨1, 1, "L", 0, 5, 1⟩] ⟨1, 1, .OUT, 3, none⟩ = .ok () :=
  (clean_ok_characterization [⟨1, 1, "L", 0, 5, 1⟩] ⟨1, 1, .OUT, 3, none⟩
    ⟨1, 1, "L", 0, 5, 1⟩ rfl).mpr
    ⟨by decide, fun _ => by decide, fun h => nomatch h⟩

theorem AllNonneg_setQuantity {s : BatchStore} (h : AllNonneg s) {v : Int}
    (hv : 0 ≤ v) (i : Nat) : AllNonneg (setQuantity s i v) := by
  intro b hbm
  unfold setQuantity at hbm
  obtain ⟨a, ha, rfl⟩ := List.mem_map.mp hbm
  unfold updAt
  split
  · exact hv
  · exact h a ha

theorem applyMovement_nonneg (s : BatchStore) (m : Movement)
    (hq : 0 ≤ m.quantity) (h : AllNonneg s) :
    AllNonneg (applyMovement s m).1 := by
  unfold applyMovement
  cases hs : Movement.save s m with
  | error e => exact h
  | ok t =>
    show AllNonneg t
    unfold Movement.save at hs
    split at hs
    · exact absurd hs (by simp)
    case _ batch heq =>
      have hmem : batch ∈ s := getBatch_mem heq
      have hbq : 0 ≤ batch.quantity := h batch hmem
      split at hs
      · simp only [Except.ok.injEq] at hs
        subst hs
        exact AllNonneg_setQuantity h (by omega) _
      · split at hs
        · exact absurd hs (by simp)
        case _ hguard =>
          simp only [Except.ok.injEq] at hs
          subst hs
          exact AllNonneg_setQuantity h (by omega) _
      · split at hs
        · exact absurd hs (by simp)
        case _ hguard =>
          simp only [Except.ok.injEq] at hs
          subst hs
          exact AllNonneg_setQuantity h (by omega) _
      · simp only [Except.ok.injEq] at hs
        subst hs
        exact AllNonneg_setQuantity h (le_max_left 0 _) _
      · split at hs
        · exact absurd hs (by simp)
        case _ hguard =>
          split at hs
          · exact absurd hs (by simp)
          case _ d hd =>
            split at hs
            · exact absurd hs (by simp)
            case _ dest s1 hgc =>
              simp only [Except.ok.injEq] at hs
              subst hs
              have hcore : AllNonneg s1 ∧ 0 ≤ dest.quantity := by
                unfold getOrCreateDest at hgc
                split at hgc
                case _ bfound hfk =>
                  simp only [Except.ok.injEq, Prod.mk.injEq] at hgc
                  obtain ⟨rfl, rfl⟩ := hgc
                  exact ⟨h, h _ (List.mem_of_find?_eq_some hfk)⟩
                case _ hfk =>
                  split at hgc
                  · exact absurd hgc (by simp)
                  · simp only [Except.ok.injEq, Prod.mk.injEq] at hgc
                    obtain ⟨rfl, rfl⟩ := hgc
                    refine ⟨?_, le_refl 0⟩
                    intro b hbm
                    rcases List.mem_append.mp hbm with hbs | hbn
                    · exact h b hbs
                    · rcases List.mem_singleton.mp hbn with rfl
                      exact le_refl 0
              exact AllNonneg_setQuantity
                (AllNonneg_setQuantity hcore.1 (by omega) _) (by omega) _

theorem applyAll_nonneg (ms : List Movement) :
    ∀ s : BatchStore, (∀ m ∈ ms, 0 ≤ m.quantity) → AllNonneg s →
      AllNonneg (applyAll s ms) := by
  induction ms with
  | nil => intro s _ h; exact h
  | cons m tail ih =>
    intro s hq h
    exact ih _ (fun x hx => hq x (List.mem_cons_of_mem _ hx))
      (applyMovement_nonneg s m (hq m (List.mem_cons_self _ _)) h)

/-- C1: starting from a store of non-negative batch quantities, after any
prefix of a sequence of movements pushed through the Application Engine
(failed ones roll back), every batch's quantity is still non-negative —
quantities stay `≥ 0` at all times. -/
theorem quantities_nonneg_through_engine (s : BatchStore)
    (ms pre : List Movement)
    (hms : ∀ m ∈ ms, 0 ≤ m.quantity)
    (hpre : ∃ rest, pre ++ rest = ms)
    (h0 : AllNonneg s) :
    AllNonneg (applyAll s pre) := by
  obtain ⟨rest, rfl⟩ := hpre
  exact applyAll_nonneg pre s
    (fun m hm => hms m (List.mem_append.mpr (Or.inl hm))) h0

theorem le_foldr_max {l : List Nat} {x : Nat} (h : x ∈ l) :
    x ≤ l.foldr Nat.max 0 := by
  induction l with
  | nil => cases h
  | cons a tail ih =>
    rcases List.mem_cons.mp h with rfl | h2
    · exact Nat.le_max_left _ _
    · exact le_trans (ih h2) (Nat.le_max_right _ _)

theorem id_lt_freshId {s : BatchStore} {b : Batch} (h : b ∈ s) :
    b.id < freshId s := by
  unfold freshId
  exact Nat.lt_succ_of_le (le_foldr_max (List.mem_map_of_mem _ h))

theorem getBatch_append_of_some {s : BatchStore} {j : Nat} {b : Batch}
    (h : getBatch s j = some b) (l : List Batch) :
    getBatch (s ++ l) j = some b := by
  unfold getBatch at h ⊢
  rw [List.find?_append, h]
  rfl

theorem getBatch_append_fresh (s : BatchStore) (nb : Batch)
    (hfresh : ∀ b ∈ s, b.id ≠ nb.id) :
    getBatch (s ++ [nb]) nb.id = some nb := by
  unfold getBatch
  rw [List.find?_append]
  have h1 : List.find? (fun b => b.id == nb.id) s = none :=
    List.find?_eq_none.mpr (fun x hx => by simpa using hfresh x hx)
  rw [h1]
  simp

theorem findByKey_fields {s : BatchStore} {p : Nat} {lc : String} {e : Int}
    {l : Nat} {dest : Batch} (h : findByKey s p lc e l = some dest) :
    dest.product = p ∧ dest.lot_code = lc ∧ dest.expiry_date = e ∧
      dest.location = l := by
  have := List.find?_some h
  simp only [Bool.and_eq_true, beq_iff_eq] at this
  exact ⟨this.1.1.1, this.1.1.2, this.1.2, this.2⟩

theorem findByKey_append_fresh {s : BatchStore} {p : Nat} {lc : String}
    {e : Int} {l : Nat} (h : findByKey s p lc e l = none) (nb : Batch)
    (hp : nb.product = p) (hlc : nb.lot_code = lc) (he : nb.expiry_date = e)
    (hl : nb.location = l) :
    findByKey (s ++ [nb]) p lc e l = some nb := by
  unfold findByKey at h ⊢
  rw [List.find?_append, h]
  simp [hp, hlc, he, hl]

theorem transfer_writes (s1 : BatchStore) (batch dest : Batch) (q : Int)
    (p : Nat) (lc : String) (e : Int) (l : Nat)
    (hsrc : (getBatch s1 batch.id).isSome)
    (hdst : (getBatch s1 dest.id).isSome)
    (hkey : findByKey s1 p lc e l = some dest)
    (hne : dest.id ≠ batch.id) :
    qtyOfId (setQuantity (setQuantity s1 dest.id (dest.quantity + q))
      batch.id (batch.quantity - q)) batch.id = batch.quantity - q ∧
    qtyOfId (setQuantity (setQuantity s1 dest.id (dest.quantity + q))
      batch.id (batch.quantity - q)) dest.id = dest.quantity + q ∧
    qtyOfKey (setQuantity (setQuantity s1 dest.id (dest.quantity + q))
      batch.id (batch.quantity - q)) p lc e l = dest.quantity + q := by
  refine ⟨?_, ?_, ?_⟩
  · apply qtyOfId_setQuantity_same
    rw [getBatch_isSome_setQuantity]
    exact hsrc
  · rw [qtyOfId_setQuantity_ne _ hne]
    exact qtyOfId_setQuantity_same _ hdst
  · unfold qtyOfKey
    rw [findByKey_setQuantity, findByKey_setQuantity, hkey]
    simp [updAt, hne]

theorem transfer_core {s : BatchStore} {m : Movement} {batch : Batch}
    {d : Nat} {t : BatchStore}
    (hnd : NodupIds s)
    (hb : getBatch s m.batch = some batch)
    (ht : m.movement_type = .TRANSFER)
    (hd : m.destination_location = some d)
    (hdl : d ≠ batch.location)
    (hok : Movement.save s m = .ok t) :
    ∃ dest s1, getOrCreateDest s batch d = .ok (dest, s1) ∧
      dest.id ≠ batch.id ∧
      m.quantity ≤ batch.quantity ∧
      qtyOfKey s batch.product batch.lot_code batch.expiry_date d =
        dest.quantity ∧
      qtyOfId t m.batch = batch.quantity - m.quantity ∧
      qtyOfId t dest.id = dest.quantity + m.quantity ∧
      qtyOfKey t batch.product batch.lot_code batch.expiry_date d =
        dest.quantity + m.quantity ∧
      (findByKey s batch.product batch.lot_code batch.expiry_date d = none →
        dest =
          ⟨freshId s, batch.product, batch.lot_code, batch.expiry_date,
            0, d⟩) ∧
      (∀ bd,
        findByKey s batch.product batch.lot_code batch.expiry_date d =
          some bd → dest = bd) := by
  have hbid : batch.id = m.batch := getBatch_id_eq hb
  have hmem : batch ∈ s := getBatch_mem hb
  rw [save_eq_of_transfer hb ht hd] at hok
  split at hok
  · exact absurd hok (by simp)
  case _ hguard =>
    split at hok
    · exact absurd hok (by simp)
    case _ dest s1 hgc =>
      simp only [Except.ok.injEq] at hok
      subst hok
      refine ⟨dest, s1, hgc, ?_⟩
      have hgb : getBatch s batch.id = some batch := by rw [hbid]; exact hb
      unfold getOrCreateDest at hgc
      split at hgc
      case _ bf hfk =>
        simp only [Except.ok.injEq, Prod.mk.injEq] at hgc
        obtain ⟨rfl, rfl⟩ := hgc
        obtain ⟨hp, hlc, he, hl⟩ := findByKey_fields hfk
        have hdmem : bf ∈ s := List.mem_of_find?_eq_some hfk
        have hne : bf.id ≠ batch.id := by
          intro hEq
          have hdb : bf = batch :=
            List.inj_on_of_nodup_map hnd hdmem hmem hEq
          rw [hdb] at hl
          exact hdl hl.symm
        obtain ⟨w1, w2, w3⟩ := transfer_writes s batch bf m.quantity
          batch.product batch.lot_code batch.expiry_date d
          (by rw [hgb]; rfl)
          (getBatch_isSome_of_mem hdmem)
          hfk hne
        refine ⟨hne, not_lt.mp hguard, ?_, ?_, w2, w3, ?_, ?_⟩
        · unfold qtyOfKey
          rw [hfk]
          rfl
        · rw [← hbid]
          exact w1
        · intro hnone
          rw [hfk] at hnone
          exact absurd hnone (by simp)
        · intro bd hbd
          rw [hfk] at hbd
          exact (Option.some.injEq _ _ ▸ hbd)
      case _ hfk =>
        split at hgc
        · exact absurd hgc (by simp)
        case _ hconf =>
          simp only [Except.ok.injEq, Prod.mk.injEq] at hgc
          obtain ⟨rfl, rfl⟩ := hgc
          have hfresh : ∀ b ∈ s, b.id ≠ freshId s :=
            fun b hbm => Nat.ne_of_lt (id_lt_freshId hbm)
          have hS1src : getBatch (s ++
              [(⟨freshId s, batch.product, batch.lot_code,
                batch.expiry_date, 0, d⟩ : Batch)]) batch.id = some batch :=
            getBatch_append_of_some hgb _
          have hS1dst := getBatch_append_fresh s
            ⟨freshId s, batch.product, batch.lot_code, batch.expiry_date,
              0, d⟩ hfresh
          have hS1key := findByKey_append_fresh hfk
            ⟨freshId s, batch.product, batch.lot_code,
              batch.expiry_date, 0, d⟩ rfl rfl rfl rfl
          have hne : (⟨freshId s, batch.product, batch.lot_code,
              batch.expiry_date, 0, d⟩ : Batch).id ≠ batch.id := by
            exact fun hEq => hfresh batch hmem hEq.symm
          obtain ⟨w1, w2, w3⟩ := transfer_writes _ batch _ m.quantity
            batch.product batch.lot_code batch.expiry_date d
            (by rw [hS1src]; rfl)
            (by rw [hS1dst]; rfl)
            hS1key hne
          refine ⟨hne, not_lt.mp hguard, ?_, ?_, w2, w3, fun _ => rfl, ?_⟩
          · unfold qtyOfKey
            rw [hfk]
            rfl
          · rw [← hbid]
            exact w1
          · intro bd hbd
            rw [hfk] at hbd
            exact absurd hbd (by simp)

/-- C2: a successfully applied TRANSFER of amount `q` from a source batch to
a destination at a different location conserves stock: the source's quantity
plus the destination's quantity after equals the source's quantity plus the
destination's quantity before (a fresh destination counting as 0 before). -/
theorem transfer_conserves_quantity (s : BatchStore) (m : Movement)
    (b : Batch) (d : Nat) (t : BatchStore)
    (hnd : NodupIds s)
    (hb : getBatch s m.batch = some b)
    (ht : m.movement_type = .TRANSFER)
    (hd : m.destination_location = some d)
    (hdl : d ≠ b.location)
    (hok : Movement.save s m = .ok t) :
    qtyOfId t m.batch + qtyOfKey t b.product b.lot_code b.expiry_date d =
      qtyOfId s m.batch + qtyOfKey s b.product b.lot_code b.expiry_date d := by
  obtain ⟨dest, s1, _, _, _, hks, hsrc, _, hkt, _, _⟩ :=
    transfer_core hnd hb ht hd hdl hok
  rw [hsrc, hkt, qtyOfId_eq_of_getBatch hb, hks]
  ring

/-- C2 witness: transferring 4 of 10 to a fresh location: 6 + 4 = 10 + 0. -/
theorem transfer_conserves_quantity_witness :
    qtyOfId [⟨1, 7, "L", 100, 6, 1⟩, ⟨2, 7, "L", 100, 4, 2⟩] 1 +
      qtyOfKey [⟨1, 7, "L", 100, 6, 1⟩, ⟨2, 7, "L", 100, 4, 2⟩] 7 "L" 100 2 =
    qtyOfId [⟨1, 7, "L", 100, 10, 1⟩] 1 +
      qtyOfKey [⟨1, 7, "L", 100, 10, 1⟩] 7 "L" 100 2 :=
  transfer_conserves_quantity [⟨1, 7, "L", 100, 10, 1⟩]
    ⟨1, 1, .TRANSFER, 4, some 2⟩ ⟨1, 7, "L", 100, 10, 1⟩ 2
    [⟨1, 7, "L", 100, 6, 1⟩, ⟨2, 7, "L", 100, 4, 2⟩]
    (by decide) rfl rfl rfl (by decide) rfl

/-- C5: a successfully applied TRANSFER resolves its destination through
`get_or_create` keyed on (product, lot_code, expiry_date, destination
location): an existing match is reused, otherwise a fresh batch is created
with the source's product, lot code and expiry, the destination location and
quantity 0; the source is decremented by the amount and the destination
incremented by the amount, within the same atomic application. -/
theorem transfer_resolution_spec (s : BatchStore) (m : Movement)
    (b : Batch) (d : Nat) (t : BatchStore)
    (hnd : NodupIds s)
    (hb : getBatch s m.batch = some b)
    (ht : m.movement_type = .TRANSFER)
    (hd : m.destination_location = some d)
    (hdl : d ≠ b.location)
    (hok : Movement.save s m = .ok t) :
    ∃ dest s1, getOrCreateDest s b d = .ok (dest, s1) ∧
      (findByKey s b.product b.lot_code b.expiry_date d = none →
        dest = ⟨freshId s, b.product, b.lot_code, b.expiry_date, 0, d⟩) ∧
      (∀ bd, findByKey s b.product b.lot_code b.expiry_date d = some bd →
        dest = bd) ∧
      qtyOfId t m.batch = b.quantity - m.quantity ∧
      qtyOfId t dest.id = dest.quantity + m.quantity := by
  obtain ⟨dest, s1, hgc, _, _, _, hsrc, hdq, _, hnone, hsome⟩ :=
    transfer_core hnd hb ht hd hdl hok
  exact ⟨dest, s1, hgc, hnone, hsome, hsrc, hdq⟩

/-- C5 witness: transferring 4 of 10 to location 2 creates the destination
batch at quantity 0, leaves the source at 6 and the destination at 4. -/
theorem transfer_resolution_spec_witness :
    ∃ dest s1,
      getOrCreateDest [⟨1, 7, "L", 100, 10, 1⟩] ⟨1, 7, "L", 100, 10, 1⟩ 2 =
        .ok (dest, s1) ∧
      (findByKey [⟨1, 7, "L", 100, 10, 1⟩] 7 "L" 100 2 = none →
        dest = ⟨freshId [⟨1, 7, "L", 100, 10, 1⟩], 7, "L", 100, 0, 2⟩) ∧
      (∀ bd, findByKey [⟨1, 7, "L", 100, 10, 1⟩] 7 "L" 100 2 = some bd →
        dest = bd) ∧
      qtyOfId [⟨1, 7, "L", 100, 6, 1⟩, ⟨2, 7, "L", 100, 4, 2⟩] 1 = 10 - 4 ∧
      qtyOfId [⟨1, 7, "L", 100, 6, 1⟩, ⟨2, 7, "L", 100, 4, 2⟩] dest.id =
        dest.quantity + 4 :=
  transfer_resolution_spec [⟨1, 7, "L", 100, 10, 1⟩]
    ⟨1, 1, .TRANSFER, 4, some 2⟩ ⟨1, 7, "L", 100, 10, 1⟩ 2
    [⟨1, 7, "L", 100, 6, 1⟩, ⟨2, 7, "L", 100, 4, 2⟩]
    (by decide) rfl rfl rfl (by decide) rfl

/-- C10: a TRANSFER with sufficient stock whose destination location already
holds a batch with the same product and lot code but a different expiry date
hits the `unique_together (product, lot_code, location)` constraint when
`get_or_create` tries to insert — the transaction rolls back and the store
(in particular the source batch's quantity) is unchanged. -/
theorem transfer_expiry_conflict_rolls_back (s : BatchStore) (m : Movement)
    (b c : Batch) (d : Nat)
    (hu : UniqueKeys s)
    (hb : getBatch s m.batch = some b)
    (ht : m.movement_type = .TRANSFER)
    (hd : m.destination_location = some d)
    (hq : m.quantity ≤ b.quantity)
    (hc : c ∈ s)
    (hcp : c.product = b.product)
    (hcl : c.lot_code = b.lot_code)
    (hcd : c.location = d)
    (hce : c.expiry_date ≠ b.expiry_date) :
    applyMovement s m = (s, some .integrityError) := by
  have hfk : findByKey s b.product b.lot_code b.expiry_date d = none := by
    cases hx : findByKey s b.product b.lot_code b.expiry_date d with
    | none => rfl
    | some x =>
      obtain ⟨hxp, hxl, hxe, hxd⟩ := findByKey_fields hx
      have hxm : x ∈ s := List.mem_of_find?_eq_some hx
      have hxc : x = c :=
        hu x hxm c hc (by rw [hxp, hcp]) (by rw [hxl, hcl])
          (by rw [hxd, hcd])
      rw [hxc] at hxe
      exact absurd hxe hce
  have hconf : hasUniqueKey s b.product b.lot_code d = true := by
    unfold hasUniqueKey
    rw [List.any_eq_true]
    exact ⟨c, hc, by simp [hcp, hcl, hcd]⟩
  have hgc : getOrCreateDest s b d = .error .integrityError := by
    unfold getOrCreateDest
    rw [hfk]
    simp [hconf]
  unfold applyMovement
  rw [save_eq_of_transfer hb ht hd, if_neg (not_lt.mpr hq), hgc]

/-- C10 witness: transferring 4 of 10 into location 2, which already holds
the same product and lot with a different expiry, yields `integrityError`
and leaves both batches untouched. -/
theorem transfer_expiry_conflict_rolls_back_witness :
    applyMovement [⟨1, 7, "L", 100, 10, 1⟩, ⟨2, 7, "L", 200, 3, 2⟩]
      ⟨1, 1, .TRANSFER, 4, some 2⟩ =
      ([⟨1, 7, "L", 100, 10, 1⟩, ⟨2, 7, "L", 200, 3, 2⟩],
        some .integrityError) :=
  transfer_expiry_conflict_rolls_back
    [⟨1, 7, "L", 100, 10, 1⟩, ⟨2, 7, "L", 200, 3, 2⟩]
    ⟨1, 1, .TRANSFER, 4, some 2⟩ ⟨1, 7, "L", 100, 10, 1⟩
    ⟨2, 7, "L", 200, 3, 2⟩ 2
    (by decide) rfl rfl rfl (by decide) (by decide) rfl rfl rfl (by decide)

/-- C1 witness: a batch holding 10, then IN(5) and a rejected OUT(20):
all quantities remain non-negative. -/
theorem quantities_nonneg_through_engine_witness :
    AllNonneg (applyAll [⟨1, 1, "L", 0, 10, 1⟩]
      [⟨1, 1, .IN, 5, none⟩, ⟨2, 1, .OUT, 20, none⟩]) :=
  quantities_nonneg_through_engine [⟨1, 1, "L", 0, 10, 1⟩]
    [⟨1, 1, .IN, 5, none⟩, ⟨2, 1, .OUT, 20, none⟩]
    [⟨1, 1, .IN, 5, none⟩, ⟨2, 1, .OUT, 20, none⟩]
    (by decide) ⟨[], rfl⟩ (by decide)

end VitaStock
